import Mathlib

/-!
# joymove.c (presets/c64): a joystick-driven hardware sprite

A shallow embedding of `src/presets/c64/joymove.c`, a cc65 program for the
Commodore 64.  The program has a setup block (bitmap upload, sprite
registers, initial position) and an endless polling loop (joystick sample,
position update, register writes, raster wait).

Machine integers follow the cc65 target: `int` is 16 bits, signed,
and its arithmetic wraps modulo 2^16; `char` and the VIC registers are
unsigned 8-bit; `size_t` and addresses are unsigned 16-bit.  They are modelled
as `Int`/`Nat` with the reduction written out at each operation.
-/

namespace Joymove

/-! ## Machine integers -/

/-- A value of the cc65 `int` type: 16 bits, signed. -/
def isInt16 (v : Int) : Prop := -32768 ≤ v ∧ v ≤ 32767

instance (v : Int) : Decidable (isInt16 v) :=
  inferInstanceAs (Decidable (-32768 ≤ v ∧ v ≤ 32767))

/-- Result of a 16-bit signed operation: the mathematical result reduced
modulo 2^16 into `-32768 .. 32767`. -/
def wrap16 (v : Int) : Int := (v + 32768) % 65536 - 32768

/-- Conversion to `unsigned char` (a store to an 8-bit register or byte). -/
def toU8 (v : Int) : Nat := (v % 256).toNat

/-- Conversion to a 16-bit unsigned value (`size_t`, or an address). -/
def toU16 (v : Int) : Nat := (v % 65536).toNat

/-! ## Data -/

/-- The bitmap `const char sprite[3*21]` (lines 12-20), byte for byte. -/
def sprite : List Nat :=
  [0x00,0x7F,0x00,0x01,0xFF,0xC0,0x03,0xFF,0xE0,
   0x03,0xE7,0xE0,0x07,0xD9,0xF0,0x07,0xDF,0xF0,
   0x07,0xD9,0xF0,0x03,0xE7,0xE0,0x03,0xFF,0xE0,
   0x03,0xFF,0xE0,0x02,0xFF,0xA0,0x01,0x7F,0x40,
   0x01,0x3E,0x40,0x00,0x9C,0x80,0x00,0x9C,0x80,
   0x00,0x49,0x00,0x00,0x49,0x00,0x00,0x3E,0x00,
   0x00,0x3E,0x00,0x00,0x3E,0x00,0x00,0x1C,0x00]

/-- The value of `sizeof(sprite)`: the declared array size `3*21`. -/
def sizeofSprite : Nat := 3 * 21

/-- The VIC registers the program stores to or tests (fields of `VIC` in the
cc65 header `c64.h`), each an unsigned 8-bit register.  The raster register,
which the program only polls, is an input of `rasterWait`. -/
structure VIC where
  bgcolor0 : Nat
  spr_ena : Nat
  spr_exp_x : Nat
  spr_exp_y : Nat
  spr0_x : Nat
  spr0_y : Nat
  spr_hi_x : Nat
  spr0_color : Nat
  spr_bg_coll : Nat

/-- Program state: the locals of `main` (`n`, `x`, `y`, all `int`), the VIC
registers, the memory reached through `POKE`, the interrupt-disable flag set
by `SEI`, and a log of the `POKE` writes in program order (address, byte). -/
structure State where
  n : Int
  x : Int
  y : Int
  vic : VIC
  mem : Nat → Nat
  irqDisabled : Bool
  pokes : List (Nat × Nat)

/-- The bit masks behind `JOY_UP`, `JOY_DOWN`, `JOY_LEFT` and `JOY_RIGHT` of
the cc65 header `joystick.h`, which is not among the sources: each of the four
tests is `((v) & MASK)`.  The masks are a parameter of the model. -/
structure JoyMasks where
  up : Nat
  down : Nat
  left : Nat
  right : Nat

/-- The mask values in `joystick.h` of cc65 (`JOY_UP_MASK` 0x01,
`JOY_DOWN_MASK` 0x02, `JOY_LEFT_MASK` 0x04, `JOY_RIGHT_MASK` 0x08); used to
instantiate the parameter at concrete inputs. -/
def cc65Masks : JoyMasks := { up := 0x01, down := 0x02, left := 0x04, right := 0x08 }

/-- The test `JOY_UP(v)`: the sample masked with the up mask. -/
def JOY_UP (jm : JoyMasks) (v : Nat) : Nat := v &&& jm.up

/-- The test `JOY_DOWN(v)`: the sample masked with the down mask. -/
def JOY_DOWN (jm : JoyMasks) (v : Nat) : Nat := v &&& jm.down

/-- The test `JOY_LEFT(v)`: the sample masked with the left mask. -/
def JOY_LEFT (jm : JoyMasks) (v : Nat) : Nat := v &&& jm.left

/-- The test `JOY_RIGHT(v)`: the sample masked with the right mask. -/
def JOY_RIGHT (jm : JoyMasks) (v : Nat) : Nat := v &&& jm.right

/-! ## Operations -/

/-- The store `POKE(addr, val)` of `peekpoke.h`: `val`, converted to a byte,
is stored at the 16-bit address `addr`. -/
def POKE (addr : Int) (val : Int) (s : State) : State :=
  { s with
    mem := fun a => if a = toU16 addr then toU8 val else s.mem a
    pokes := s.pokes ++ [(toU16 addr, toU8 val)] }

/-- The copy loop of lines 38-40, entered after `n = 0`:
`for (...; n < sizeof(sprite); n++) POKE(832 + n, sprite[n]);`.
The comparison is unsigned (`sizeof` is a `size_t`). -/
def copyLoop (s : State) : State :=
  if h : toU16 s.n < sizeofSprite then
    copyLoop { POKE (wrap16 (832 + s.n)) (sprite.getD s.n.toNat 0) s with n := wrap16 (s.n + 1) }
  else s
termination_by sizeofSprite - toU16 s.n
decreasing_by
  simp only [POKE, toU16, wrap16, sizeofSprite] at h ⊢
  omega

/-- The setup block of `main`, lines 32-50.  `joy_install` acts on the
joystick driver only, outside the state modelled here. -/
def mainSetup (s : State) : State :=
  let s := { s with vic := { s.vic with bgcolor0 := toU8 3 } }
  let s := { s with irqDisabled := true }
  let s := copyLoop { s with n := 0 }
  let s := { s with vic := { s.vic with spr_ena := toU8 0x01 } }
  let s := { s with vic := { s.vic with spr_exp_x := toU8 0x01 } }
  let s := { s with vic := { s.vic with spr_exp_y := toU8 0x01 } }
  let s := POKE 2040 13 s
  let s := { s with x := 160 }
  { s with y := 128 }

/-- The body of the endless loop, lines 54-65, for the joystick sample `joy`
(the value `joy_read(0)` gave to `char joy`). -/
def mainLoopBody (jm : JoyMasks) (joy : Nat) (s : State) : State :=
  let s := if JOY_LEFT jm joy ≠ 0 then { s with x := wrap16 (s.x - 1) } else s
  let s := if JOY_UP jm joy ≠ 0 then { s with y := wrap16 (s.y - 1) } else s
  let s := if JOY_RIGHT jm joy ≠ 0 then { s with x := wrap16 (s.x + 1) } else s
  let s := if JOY_DOWN jm joy ≠ 0 then { s with y := wrap16 (s.y + 1) } else s
  let s := { s with vic := { s.vic with spr0_x := toU8 s.x } }
  let s := { s with vic := { s.vic with spr0_y := toU8 s.y } }
  let s := { s with vic := { s.vic with
    spr_hi_x := toU8 (if Int.land s.x 256 ≠ 0 then 1 else 0) } }
  { s with vic := { s.vic with
    spr0_color := toU8 (if s.vic.spr_bg_coll &&& 1 ≠ 0 then 10 else 0) } }

/-- The function `rasterWait(line)`, lines 23-25: poll `VIC.rasterline` while it is below
`line`.  The register is driven by the video chip: `raster k` is the value the
`k`-th read returns.  The result is the number of reads made, or `none` when
`fuel` reads did not suffice.  Nothing is written. -/
def rasterWait (raster : Nat → Nat) (line : Nat) : Nat → Nat → Option Nat
  | 0, _ => none
  | fuel + 1, k =>
    if raster k < line then rasterWait raster line fuel (k + 1) else some (k + 1)

/-- One full pass of the endless loop, lines 54-67: the body, then
`rasterWait(255)`. -/
def mainLoopIter (jm : JoyMasks) (joy : Nat) (raster : Nat → Nat) (fuel : Nat)
    (s : State) : Option State :=
  match rasterWait raster 255 fuel 0 with
  | none => none
  | some _ => some (mainLoopBody jm joy s)

/-- A state with every local, register and memory byte zero. -/
def zeroState : State :=
  { n := 0, x := 0, y := 0
    vic := { bgcolor0 := 0, spr_ena := 0, spr_exp_x := 0, spr_exp_y := 0, spr0_x := 0,
             spr0_y := 0, spr_hi_x := 0, spr0_color := 0, spr_bg_coll := 0 }
    mem := fun _ => 0
    irqDisabled := false
    pokes := [] }

/-- Whether the left signal is active in the sample: `JOY_LEFT(joy)` is true in C. -/
def leftActive (jm : JoyMasks) (joy : Nat) : Prop := JOY_LEFT jm joy ≠ 0

/-- Whether the right signal is active in the sample. -/
def rightActive (jm : JoyMasks) (joy : Nat) : Prop := JOY_RIGHT jm joy ≠ 0

/-- Whether the up signal is active in the sample. -/
def upActive (jm : JoyMasks) (joy : Nat) : Prop := JOY_UP jm joy ≠ 0

/-- Whether the down signal is active in the sample. -/
def downActive (jm : JoyMasks) (joy : Nat) : Prop := JOY_DOWN jm joy ≠ 0

instance (jm : JoyMasks) (joy : Nat) : Decidable (leftActive jm joy) :=
  inferInstanceAs (Decidable (JOY_LEFT jm joy ≠ 0))

instance (jm : JoyMasks) (joy : Nat) : Decidable (rightActive jm joy) :=
  inferInstanceAs (Decidable (JOY_RIGHT jm joy ≠ 0))

instance (jm : JoyMasks) (joy : Nat) : Decidable (upActive jm joy) :=
  inferInstanceAs (Decidable (JOY_UP jm joy ≠ 0))

instance (jm : JoyMasks) (joy : Nat) : Decidable (downActive jm joy) :=
  inferInstanceAs (Decidable (JOY_DOWN jm joy ≠ 0))

/-- The indicator of a signal: 1 when active, 0 when not. -/
def ind (p : Prop) [Decidable p] : Int := if p then 1 else 0

/-! ## Machine-integer and loop-body lemmas -/

theorem wrap16_of_isInt16 {v : Int} (h : isInt16 v) : wrap16 v = v := by
  unfold isInt16 at h
  unfold wrap16
  omega

theorem isInt16_wrap16 (v : Int) : isInt16 (wrap16 v) := by
  unfold isInt16 wrap16
  omega

theorem wrap16_dec_inc {v : Int} (h : isInt16 v) : wrap16 (wrap16 (v - 1) + 1) = v := by
  unfold isInt16 at h
  unfold wrap16
  omega

theorem wrap16_inc_dec {v : Int} (h : isInt16 v) : wrap16 (wrap16 (v + 1) - 1) = v := by
  unfold isInt16 at h
  unfold wrap16
  omega

theorem wrap16_wrap16_add (v c : Int) : wrap16 (wrap16 v + c) = wrap16 (v + c) := by
  unfold wrap16
  omega

/-- The new `x` depends on the old `x` and the left and right signals only. -/
theorem mainLoopBody_x (jm : JoyMasks) (joy : Nat) (s : State) :
    (mainLoopBody jm joy s).x =
      if rightActive jm joy then
        wrap16 ((if leftActive jm joy then wrap16 (s.x - 1) else s.x) + 1)
      else (if leftActive jm joy then wrap16 (s.x - 1) else s.x) := by
  unfold mainLoopBody leftActive rightActive
  by_cases hl : JOY_LEFT jm joy = 0 <;> by_cases hu : JOY_UP jm joy = 0 <;>
    by_cases hr : JOY_RIGHT jm joy = 0 <;> by_cases hd : JOY_DOWN jm joy = 0 <;>
    simp [hl, hu, hr, hd]

theorem mainLoopBody_y (jm : JoyMasks) (joy : Nat) (s : State) :
    (mainLoopBody jm joy s).y =
      if downActive jm joy then
        wrap16 ((if upActive jm joy then wrap16 (s.y - 1) else s.y) + 1)
      else (if upActive jm joy then wrap16 (s.y - 1) else s.y) := by
  unfold mainLoopBody upActive downActive
  by_cases hl : JOY_LEFT jm joy = 0 <;> by_cases hu : JOY_UP jm joy = 0 <;>
    by_cases hr : JOY_RIGHT jm joy = 0 <;> by_cases hd : JOY_DOWN jm joy = 0 <;>
    simp [hl, hu, hr, hd]

theorem mainLoopBody_spr0_x (jm : JoyMasks) (joy : Nat) (s : State) :
    (mainLoopBody jm joy s).vic.spr0_x = toU8 (mainLoopBody jm joy s).x := by
  unfold mainLoopBody
  by_cases hl : JOY_LEFT jm joy = 0 <;> by_cases hu : JOY_UP jm joy = 0 <;>
    by_cases hr : JOY_RIGHT jm joy = 0 <;> by_cases hd : JOY_DOWN jm joy = 0 <;>
    simp [hl, hu, hr, hd]

theorem mainLoopBody_spr0_y (jm : JoyMasks) (joy : Nat) (s : State) :
    (mainLoopBody jm joy s).vic.spr0_y = toU8 (mainLoopBody jm joy s).y := by
  unfold mainLoopBody
  by_cases hl : JOY_LEFT jm joy = 0 <;> by_cases hu : JOY_UP jm joy = 0 <;>
    by_cases hr : JOY_RIGHT jm joy = 0 <;> by_cases hd : JOY_DOWN jm joy = 0 <;>
    simp [hl, hu, hr, hd]

theorem mainLoopBody_spr_hi_x (jm : JoyMasks) (joy : Nat) (s : State) :
    (mainLoopBody jm joy s).vic.spr_hi_x =
      toU8 (if Int.land (mainLoopBody jm joy s).x 256 ≠ 0 then 1 else 0) := by
  unfold mainLoopBody
  by_cases hl : JOY_LEFT jm joy = 0 <;> by_cases hu : JOY_UP jm joy = 0 <;>
    by_cases hr : JOY_RIGHT jm joy = 0 <;> by_cases hd : JOY_DOWN jm joy = 0 <;>
    simp [hl, hu, hr, hd]

theorem mainLoopBody_spr0_color (jm : JoyMasks) (joy : Nat) (s : State) :
    (mainLoopBody jm joy s).vic.spr0_color =
      toU8 (if s.vic.spr_bg_coll &&& 1 ≠ 0 then 10 else 0) := by
  unfold mainLoopBody
  by_cases hl : JOY_LEFT jm joy = 0 <;> by_cases hu : JOY_UP jm joy = 0 <;>
    by_cases hr : JOY_RIGHT jm joy = 0 <;> by_cases hd : JOY_DOWN jm joy = 0 <;>
    simp [hl, hu, hr, hd]

theorem land_256_ne_zero_iff {x : Int} (h0 : 0 ≤ x) (h1 : x ≤ 511) :
    Int.land x 256 ≠ 0 ↔ 256 ≤ x := by
  obtain ⟨n, rfl⟩ := Int.eq_ofNat_of_zero_le h0
  have hn : n < 512 := by omega
  have key : Int.land (n : Int) 256 = ((n &&& 256 : Nat) : Int) := rfl
  rw [key]
  have h2 : n &&& 256 = (n.testBit 8).toNat * 2 ^ 8 := Nat.and_two_pow n 8
  rw [h2, Nat.testBit_to_div_mod]
  by_cases hc : n / 2 ^ 8 % 2 = 1
  · simp [hc]; omega
  · simp [hc]; omega

/-- For a signed `x`, `x & 256` is non-zero exactly when bit 8 of `x` is set. -/
theorem land_256_ne_zero_iff_testBit (x : Int) : Int.land x 256 ≠ 0 ↔ x.testBit 8 = true := by
  cases x with
  | ofNat n =>
    have key : Int.land (Int.ofNat n) 256 = ((n &&& 256 : Nat) : Int) := rfl
    have kt : (Int.ofNat n).testBit 8 = n.testBit 8 := rfl
    have h2 : n &&& 256 = (n.testBit 8).toNat * 2 ^ 8 := Nat.and_two_pow n 8
    rw [key, kt, h2]
    cases n.testBit 8 <;> simp
  | negSucc m =>
    have key : Int.land (Int.negSucc m) 256 = ((Nat.ldiff 256 m : Nat) : Int) := rfl
    have kt : (Int.negSucc m).testBit 8 = !(m.testBit 8) := rfl
    rw [key, kt]
    have hb : ∀ k, (Nat.ldiff 256 m).testBit k = (Nat.testBit 256 k && !(m.testBit k)) :=
      Nat.testBit_ldiff 256 m
    have h256 : ∀ k, Nat.testBit 256 k = decide (8 = k) := by
      intro k
      rw [show (256 : Nat) = 2 ^ 8 by norm_num, Nat.testBit_two_pow]
    cases hm : m.testBit 8
    · have h8 := hb 8
      rw [hm] at h8
      have : Nat.ldiff 256 m ≠ 0 := by
        intro h0
        rw [h0, h256] at h8
        simp at h8
      simpa using this
    · have : Nat.ldiff 256 m = 0 := by
        apply Nat.eq_of_testBit_eq
        intro k
        rw [hb, h256]
        by_cases hk : 8 = k
        · subst hk; simp [hm]
        · simp [hk]
      simp [this]

/-! ## The copy loop -/

theorem sprite_getD_lt (i : Nat) : sprite.getD i 0 < 256 := by
  have hall : ∀ b ∈ sprite, b < 256 := by decide
  by_cases hi : i < sprite.length
  · rw [List.getD_eq_getElem _ _ hi]
    exact hall _ (List.getElem_mem hi)
  · rw [List.getD_eq_default _ _ (by omega)]
    decide

theorem toU8_sprite (i : Nat) : toU8 ((sprite.getD i 0 : Nat) : Int) = sprite.getD i 0 := by
  have h := sprite_getD_lt i
  unfold toU8
  omega

/-- The copy loop entered with `n = k` and `j` bytes left to copy. -/
theorem copyLoop_from (j : Nat) : ∀ (k : Nat) (s : State), k + j = 63 → s.n = (k : Int) →
    (copyLoop s).n = 63 ∧
    (copyLoop s).pokes =
      s.pokes ++ (List.range' k j).map (fun i => (832 + i, sprite.getD i 0)) ∧
    (∀ a, (copyLoop s).mem a =
      if 832 + k ≤ a ∧ a < 895 then sprite.getD (a - 832) 0 else s.mem a) := by
  induction j with
  | zero =>
    intro k s hk hn
    have hk63 : k = 63 := by omega
    subst hk63
    have hc : ¬ toU16 s.n < sizeofSprite := by
      rw [hn]; decide
    rw [copyLoop, dif_neg hc]
    refine ⟨by rw [hn]; rfl, by simp, ?_⟩
    intro a
    have : ¬ (832 + 63 ≤ a ∧ a < 895) := by omega
    rw [if_neg this]
  | succ j ih =>
    intro k s hk hn
    have hc : toU16 s.n < sizeofSprite := by
      rw [hn]; unfold toU16 sizeofSprite; omega
    rw [copyLoop, dif_pos hc]
    have hn1 : wrap16 (s.n + 1) = ((k + 1 : Nat) : Int) := by
      rw [hn]; unfold wrap16; omega
    have haddr : toU16 (wrap16 (832 + s.n)) = 832 + k := by
      rw [hn]; unfold toU16 wrap16; omega
    have hidx : s.n.toNat = k := by rw [hn]; simp
    obtain ⟨h1, h2, h3⟩ := ih (k + 1)
      { POKE (wrap16 (832 + s.n)) (sprite.getD s.n.toNat 0) s with n := wrap16 (s.n + 1) }
      (by omega) hn1
    refine ⟨h1, ?_, ?_⟩
    · rw [h2]
      simp only [POKE, haddr, hidx, toU8_sprite, List.range'_succ, List.map_cons,
        List.append_assoc, List.singleton_append]
    · intro a
      rw [h3]
      simp only [POKE, haddr, hidx, toU8_sprite]
      by_cases ha : a = 832 + k
      · subst ha
        have e1 : ¬ (832 + (k + 1) ≤ 832 + k ∧ 832 + k < 895) := by omega
        have e2 : 832 + k ≤ 832 + k ∧ 832 + k < 895 := by omega
        rw [if_neg e1, if_pos e2]
        simp
      · by_cases hr : 832 + (k + 1) ≤ a ∧ a < 895
        · have e2 : 832 + k ≤ a ∧ a < 895 := by omega
          rw [if_pos hr, if_pos e2]
        · have e2 : ¬ (832 + k ≤ a ∧ a < 895) := by omega
          rw [if_neg hr, if_neg e2, if_neg ha]

/-- The copy loop as `main` enters it, after `n = 0`. -/
theorem copyLoop_zero (s : State) :
    (copyLoop { s with n := 0 }).n = 63 ∧
    (copyLoop { s with n := 0 }).pokes =
      s.pokes ++ (List.range 63).map (fun i => (832 + i, sprite.getD i 0)) ∧
    (∀ a, (copyLoop { s with n := 0 }).mem a =
      if 832 ≤ a ∧ a < 895 then sprite.getD (a - 832) 0 else s.mem a) := by
  have h := copyLoop_from 63 0 { s with n := 0 } (by omega) rfl
  simpa [List.range_eq_range'] using h

theorem sprite_getElem?_eq (n : Nat) (h : n < 63) : sprite[n]? = some (sprite.getD n 0) := by
  have hl : n < sprite.length := by simpa [sprite] using h
  rw [List.getD_eq_getElem _ _ hl, List.getElem?_eq_getElem hl]

theorem rasterWait_gives (raster : Nat → Nat) (line : Nat) :
    ∀ (d k : Nat), (∀ i, k ≤ i → i < k + d → raster i < line) → ¬ raster (k + d) < line →
      ∀ fuel, d < fuel → rasterWait raster line fuel k = some (k + d + 1) := by
  intro d
  induction d with
  | zero =>
    intro k _ hstop fuel hf
    obtain ⟨f, rfl⟩ : ∃ f, fuel = f + 1 := ⟨fuel - 1, by omega⟩
    simp only [rasterWait, Nat.add_zero] at hstop ⊢
    rw [if_neg hstop]
  | succ d ih =>
    intro k hlow hstop fuel hf
    obtain ⟨f, rfl⟩ : ∃ f, fuel = f + 1 := ⟨fuel - 1, by omega⟩
    have hk : raster k < line := hlow k (Nat.le_refl k) (by omega)
    simp only [rasterWait]
    rw [if_pos hk]
    have e : k + (d + 1) = k + 1 + d := by omega
    rw [e] at hstop ⊢
    exact ih (k + 1) (fun i h1 h2 => hlow i (by omega) (by omega)) hstop f (by omega)

/-- A pass of the loop completes, with the state the body leaves, as soon as
the raster line read reaches 255 within the fuel. -/
theorem mainLoopIter_gives (jm : JoyMasks) (joy : Nat) (raster : Nat → Nat) (d fuel : Nat)
    (s : State) (hlow : ∀ i, i < d → raster i < 255) (hstop : ¬ raster d < 255)
    (hf : d < fuel) :
    mainLoopIter jm joy raster fuel s = some (mainLoopBody jm joy s) := by
  have h := rasterWait_gives raster 255 d 0
    (fun i _ h2 => hlow i (by omega)) (by simpa using hstop) fuel hf
  unfold mainLoopIter
  rw [h]

/-! ## The claims -/

/-- C1 (counterexample): at the lower limit of the 16-bit `int`, x = -32768,
an iteration with only left active leaves x = 32767, which is not x - 1. -/
theorem c1_counterexample :
    isInt16 (-32768) ∧ leftActive cc65Masks 4 ∧ ¬ rightActive cc65Masks 4 ∧
    (mainLoopBody cc65Masks 4 { zeroState with x := -32768 }).x = 32767 ∧
    (mainLoopBody cc65Masks 4 { zeroState with x := -32768 }).x ≠
      ({ zeroState with x := -32768 } : State).x - ind (leftActive cc65Masks 4)
        + ind (rightActive cc65Masks 4) := by
  decide

/-- C1 (amended): for every position (x, y) in the 16-bit int range and every
joystick sample, one iteration of the loop body yields the new x as
x - [left] + [right] and the new y as y - [up] + [down], each reduced modulo
2^16 into the int range, hence
exactly these values whenever they lie in -32768..32767; each axis is a
function of its own coordinate and its own two signals only; and with no
directional signal active the position is unchanged. -/
theorem c1_update_step (jm : JoyMasks) (joy : Nat) (s : State)
    (hx : isInt16 s.x) (hy : isInt16 s.y) :
    (mainLoopBody jm joy s).x
      = wrap16 (s.x - ind (leftActive jm joy) + ind (rightActive jm joy)) ∧
    (mainLoopBody jm joy s).y
      = wrap16 (s.y - ind (upActive jm joy) + ind (downActive jm joy)) ∧
    (isInt16 (s.x - ind (leftActive jm joy) + ind (rightActive jm joy)) →
      (mainLoopBody jm joy s).x = s.x - ind (leftActive jm joy) + ind (rightActive jm joy)) ∧
    (isInt16 (s.y - ind (upActive jm joy) + ind (downActive jm joy)) →
      (mainLoopBody jm joy s).y = s.y - ind (upActive jm joy) + ind (downActive jm joy)) ∧
    (¬ leftActive jm joy ∧ ¬ rightActive jm joy ∧ ¬ upActive jm joy ∧ ¬ downActive jm joy →
      (mainLoopBody jm joy s).x = s.x ∧ (mainLoopBody jm joy s).y = s.y) := by
  have ex : (mainLoopBody jm joy s).x
      = wrap16 (s.x - ind (leftActive jm joy) + ind (rightActive jm joy)) := by
    rw [mainLoopBody_x]
    by_cases hl : leftActive jm joy <;> by_cases hr : rightActive jm joy <;>
      simp only [hl, hr, ind, if_true, if_false] <;>
      unfold isInt16 at hx <;> unfold wrap16 <;> omega
  have ey : (mainLoopBody jm joy s).y
      = wrap16 (s.y - ind (upActive jm joy) + ind (downActive jm joy)) := by
    rw [mainLoopBody_y]
    by_cases hu : upActive jm joy <;> by_cases hd : downActive jm joy <;>
      simp only [hu, hd, ind, if_true, if_false] <;>
      unfold isInt16 at hy <;> unfold wrap16 <;> omega
  refine ⟨ex, ey, ?_, ?_, ?_⟩
  · intro h; rw [ex, wrap16_of_isInt16 h]
  · intro h; rw [ey, wrap16_of_isInt16 h]
  · rintro ⟨hl, hr, hu, hd⟩
    rw [mainLoopBody_x, mainLoopBody_y]
    simp [hl, hr, hu, hd]

/-- C1 (witness): the amended statement at the start position (160, 128) with
up and left active. -/
theorem c1_update_step_witness :
    isInt16 ({ zeroState with x := 160, y := 128 } : State).x ∧
    isInt16 ({ zeroState with x := 160, y := 128 } : State).y ∧
    (mainLoopBody cc65Masks 5 { zeroState with x := 160, y := 128 }).x
      = wrap16 (160 - ind (leftActive cc65Masks 5) + ind (rightActive cc65Masks 5)) ∧
    (mainLoopBody cc65Masks 5 { zeroState with x := 160, y := 128 }).x = 159 :=
  ⟨by decide, by decide,
   (c1_update_step cc65Masks 5 { zeroState with x := 160, y := 128 }
      (by decide) (by decide)).1, by decide⟩

/-- C2 (counterexample): at the upper limit of the 16-bit `int`, x = 32767,
an iteration with only right active leaves x = -32768: the change is not of
magnitude 1 and the result is not x + 1. -/
theorem c2_counterexample :
    isInt16 32767 ∧
    (rightActive cc65Masks 8 ∧ ¬ leftActive cc65Masks 8 ∧ ¬ upActive cc65Masks 8 ∧
      ¬ downActive cc65Masks 8) ∧
    (mainLoopBody cc65Masks 8 { zeroState with x := 32767 }).x = -32768 ∧
    (mainLoopBody cc65Masks 8 { zeroState with x := 32767 }).x ≠ 32767 + 1 ∧
    ((mainLoopBody cc65Masks 8 { zeroState with x := 32767 }).x - 32767).natAbs ≠ 1 := by
  decide

/-- C2 (amended): for every position (x, y) in the 16-bit int range and every
sample with exactly one directional signal active, one loop iteration leaves
the other coordinate unchanged and moves the affected one by one step of
16-bit arithmetic (left x-1, right x+1, up y-1, down y+1, reduced modulo 2^16):
the change is exactly 1 in magnitude whenever the coordinate is not at the int
limit in that direction. -/
theorem c2_single_direction (jm : JoyMasks) (joy : Nat) (s : State)
    (hx : isInt16 s.x) (hy : isInt16 s.y) :
    (leftActive jm joy ∧ ¬ rightActive jm joy ∧ ¬ upActive jm joy ∧ ¬ downActive jm joy →
      (mainLoopBody jm joy s).x = wrap16 (s.x - 1) ∧ (mainLoopBody jm joy s).y = s.y ∧
      (-32768 < s.x → (mainLoopBody jm joy s).x = s.x - 1)) ∧
    (rightActive jm joy ∧ ¬ leftActive jm joy ∧ ¬ upActive jm joy ∧ ¬ downActive jm joy →
      (mainLoopBody jm joy s).x = wrap16 (s.x + 1) ∧ (mainLoopBody jm joy s).y = s.y ∧
      (s.x < 32767 → (mainLoopBody jm joy s).x = s.x + 1)) ∧
    (upActive jm joy ∧ ¬ downActive jm joy ∧ ¬ leftActive jm joy ∧ ¬ rightActive jm joy →
      (mainLoopBody jm joy s).y = wrap16 (s.y - 1) ∧ (mainLoopBody jm joy s).x = s.x ∧
      (-32768 < s.y → (mainLoopBody jm joy s).y = s.y - 1)) ∧
    (downActive jm joy ∧ ¬ upActive jm joy ∧ ¬ leftActive jm joy ∧ ¬ rightActive jm joy →
      (mainLoopBody jm joy s).y = wrap16 (s.y + 1) ∧ (mainLoopBody jm joy s).x = s.x ∧
      (s.y < 32767 → (mainLoopBody jm joy s).y = s.y + 1)) := by
  unfold isInt16 at hx hy
  refine ⟨?_, ?_, ?_, ?_⟩
  · rintro ⟨hl, hr, hu, hd⟩
    rw [mainLoopBody_x, mainLoopBody_y]
    simp only [hl, hr, hu, hd, if_true, if_false, true_and]
    intro h; unfold wrap16; omega
  · rintro ⟨hr, hl, hu, hd⟩
    rw [mainLoopBody_x, mainLoopBody_y]
    simp only [hl, hr, hu, hd, if_true, if_false, true_and]
    intro h; unfold wrap16; omega
  · rintro ⟨hu, hd, hl, hr⟩
    rw [mainLoopBody_x, mainLoopBody_y]
    simp only [hl, hr, hu, hd, if_true, if_false, true_and]
    intro h; unfold wrap16; omega
  · rintro ⟨hd, hu, hl, hr⟩
    rw [mainLoopBody_x, mainLoopBody_y]
    simp only [hl, hr, hu, hd, if_true, if_false, true_and]
    intro h; unfold wrap16; omega

/-- C2 (witness): the amended statement at (160, 128) with only left active. -/
theorem c2_single_direction_witness :
    isInt16 ({ zeroState with x := 160, y := 128 } : State).x ∧
    isInt16 ({ zeroState with x := 160, y := 128 } : State).y ∧
    (leftActive cc65Masks 4 ∧ ¬ rightActive cc65Masks 4 ∧ ¬ upActive cc65Masks 4 ∧
      ¬ downActive cc65Masks 4) ∧
    (mainLoopBody cc65Masks 4 { zeroState with x := 160, y := 128 }).x = 160 - 1 ∧
    (mainLoopBody cc65Masks 4 { zeroState with x := 160, y := 128 }).y = 128 :=
  ⟨by decide, by decide, by decide,
   ((c2_single_direction cc65Masks 4 { zeroState with x := 160, y := 128 }
      (by decide) (by decide)).1 (by decide)).2.2 (by decide),
   ((c2_single_direction cc65Masks 4 { zeroState with x := 160, y := 128 }
      (by decide) (by decide)).1 (by decide)).2.1⟩

/-- C3: for every position held in the 16-bit int variables and every sample,
if left and right are both active then x after one loop iteration equals x
before it, and if up and down are both active then y after the iteration
equals y before it: the decrement and the increment are both applied and
cancel, also at the limits of the int range. -/
theorem c3_opposing_cancel (jm : JoyMasks) (joy : Nat) (s : State)
    (hx : isInt16 s.x) (hy : isInt16 s.y) :
    (leftActive jm joy ∧ rightActive jm joy → (mainLoopBody jm joy s).x = s.x) ∧
    (upActive jm joy ∧ downActive jm joy → (mainLoopBody jm joy s).y = s.y) := by
  constructor
  · rintro ⟨hl, hr⟩
    rw [mainLoopBody_x]
    simp only [hl, hr, if_true]
    exact wrap16_dec_inc hx
  · rintro ⟨hu, hd⟩
    rw [mainLoopBody_y]
    simp only [hu, hd, if_true]
    exact wrap16_dec_inc hy

/-- C3 (witness): at the lowest int value on both axes, with all four signals
active, the position is unchanged. -/
theorem c3_opposing_cancel_witness :
    isInt16 ({ zeroState with x := -32768, y := -32768 } : State).x ∧
    isInt16 ({ zeroState with x := -32768, y := -32768 } : State).y ∧
    (leftActive cc65Masks 15 ∧ rightActive cc65Masks 15) ∧
    (upActive cc65Masks 15 ∧ downActive cc65Masks 15) ∧
    (mainLoopBody cc65Masks 15 { zeroState with x := -32768, y := -32768 }).x = -32768 ∧
    (mainLoopBody cc65Masks 15 { zeroState with x := -32768, y := -32768 }).y = -32768 :=
  ⟨by decide, by decide, by decide, by decide,
   (c3_opposing_cancel cc65Masks 15 { zeroState with x := -32768, y := -32768 }
      (by decide) (by decide)).1 (by decide),
   (c3_opposing_cancel cc65Masks 15 { zeroState with x := -32768, y := -32768 }
      (by decide) (by decide)).2 (by decide)⟩

/-- C4: for every x with 0 <= x <= 511, the value (x & 256) ? 1 : 0 that the
loop writes to the sprite X high-bit register is 1 if and only if x >= 256;
the same holds of the register itself after a loop iteration, for the x the
iteration leaves. -/
theorem c4_high_bit (jm : JoyMasks) (joy : Nat) (s : State) (x : Int)
    (h0 : 0 ≤ x) (h1 : x ≤ 511) :
    (toU8 (if Int.land x 256 ≠ 0 then 1 else 0) = 1 ↔ 256 ≤ x) ∧
    ((mainLoopBody jm joy s).x = x →
      ((mainLoopBody jm joy s).vic.spr_hi_x = 1 ↔ 256 ≤ x)) := by
  have key : toU8 (if Int.land x 256 ≠ 0 then 1 else 0) = 1 ↔ 256 ≤ x := by
    rw [← land_256_ne_zero_iff h0 h1]
    by_cases hc : Int.land x 256 = 0
    · simp [hc, toU8]
    · simp [hc, toU8]
  refine ⟨key, ?_⟩
  intro hx
  rw [mainLoopBody_spr_hi_x, hx]
  exact key

/-- C4 (witness): x = 255 moved right to 256 sets the high-bit register. -/
theorem c4_high_bit_witness :
    (0 : Int) ≤ 256 ∧ (256 : Int) ≤ 511 ∧
    ((mainLoopBody cc65Masks 8 { zeroState with x := 255 }).vic.spr_hi_x = 1 ↔
      (256 : Int) ≤ 256) :=
  ⟨by decide, by decide,
   (c4_high_bit cc65Masks 8 { zeroState with x := 255 } 256 (by decide) (by decide)).2
     (by decide)⟩

/-- C5: for every value of the sprite-background collision register and every
previous sprite colour, after one loop iteration the sprite 0 colour register
is 10 if bit 0 of the collision register is 1 and 0 if that bit is 0; no other
value is written, and neither the other bits of the collision register nor the
previous colour influence the result. -/
theorem c5_collision_colour (jm : JoyMasks) (joy : Nat) (s : State) :
    (s.vic.spr_bg_coll.testBit 0 = true → (mainLoopBody jm joy s).vic.spr0_color = 10) ∧
    (s.vic.spr_bg_coll.testBit 0 = false → (mainLoopBody jm joy s).vic.spr0_color = 0) ∧
    ((mainLoopBody jm joy s).vic.spr0_color = 10 ∨
      (mainLoopBody jm joy s).vic.spr0_color = 0) ∧
    (∀ (jm2 : JoyMasks) (joy2 : Nat) (t : State),
      t.vic.spr_bg_coll.testBit 0 = s.vic.spr_bg_coll.testBit 0 →
      (mainLoopBody jm2 joy2 t).vic.spr0_color = (mainLoopBody jm joy s).vic.spr0_color) := by
  have key : ∀ (jm : JoyMasks) (joy : Nat) (s : State),
      (mainLoopBody jm joy s).vic.spr0_color
        = if s.vic.spr_bg_coll.testBit 0 = true then 10 else 0 := by
    intro jm joy s
    rw [mainLoopBody_spr0_color, Nat.and_one_is_mod, Nat.testBit_to_div_mod]
    by_cases hc : s.vic.spr_bg_coll % 2 = 0
    · have h2 : ¬ s.vic.spr_bg_coll % 2 = 1 := by omega
      simp [hc, toU8]
    · have h2 : s.vic.spr_bg_coll % 2 = 1 := by omega
      simp [h2, toU8]
  refine ⟨?_, ?_, ?_, ?_⟩
  · intro h; rw [key, if_pos h]
  · intro h; rw [key, h]; simp
  · rw [key]
    by_cases h : s.vic.spr_bg_coll.testBit 0 = true
    · left; rw [if_pos h]
    · right; rw [if_neg h]
  · intro jm2 joy2 t h
    rw [key, key, h]

/-- C5 (witness): collision register 0xFF with previous colour 7 gives colour
10; collision register 0xFE gives colour 0. -/
theorem c5_collision_colour_witness :
    (mainLoopBody cc65Masks 0
      { zeroState with vic := { zeroState.vic with spr_bg_coll := 0xFF, spr0_color := 7 } }
      ).vic.spr0_color = 10 ∧
    (mainLoopBody cc65Masks 0
      { zeroState with vic := { zeroState.vic with spr_bg_coll := 0xFE, spr0_color := 7 } }
      ).vic.spr0_color = 0 :=
  ⟨(c5_collision_colour cc65Masks 0
      { zeroState with vic := { zeroState.vic with spr_bg_coll := 0xFF, spr0_color := 7 } }
      ).1 (by decide),
   (c5_collision_colour cc65Masks 0
      { zeroState with vic := { zeroState.vic with spr_bg_coll := 0xFE, spr0_color := 7 } }
      ).2.1 (by decide)⟩

/-- C6: setup establishes the position (160, 128); from it one loop iteration
with left and up active yields (159, 127) and a following iteration with right
and down active yields (160, 128) again; and for every starting position in
the int range, an iteration with left+up followed by an iteration with
right+down returns the position to its starting value (whatever the video
chip did to the registers in between). -/
theorem c6_round_trip (jm : JoyMasks) (j1 j2 : Nat) (s0 : State)
    (h1 : leftActive jm j1 ∧ upActive jm j1 ∧ ¬ rightActive jm j1 ∧ ¬ downActive jm j1)
    (h2 : rightActive jm j2 ∧ downActive jm j2 ∧ ¬ leftActive jm j2 ∧ ¬ upActive jm j2) :
    ((mainSetup s0).x = 160 ∧ (mainSetup s0).y = 128) ∧
    ((mainLoopBody jm j1 (mainSetup s0)).x = 159 ∧
      (mainLoopBody jm j1 (mainSetup s0)).y = 127) ∧
    ((mainLoopBody jm j2 (mainLoopBody jm j1 (mainSetup s0))).x = 160 ∧
      (mainLoopBody jm j2 (mainLoopBody jm j1 (mainSetup s0))).y = 128) ∧
    (∀ s t : State, isInt16 s.x → isInt16 s.y →
      t.x = (mainLoopBody jm j1 s).x → t.y = (mainLoopBody jm j1 s).y →
      (mainLoopBody jm j2 t).x = s.x ∧ (mainLoopBody jm j2 t).y = s.y) := by
  obtain ⟨hl1, hu1, hr1, hd1⟩ := h1
  obtain ⟨hr2, hd2, hl2, hu2⟩ := h2
  have gen : ∀ s t : State, isInt16 s.x → isInt16 s.y →
      t.x = (mainLoopBody jm j1 s).x → t.y = (mainLoopBody jm j1 s).y →
      (mainLoopBody jm j2 t).x = s.x ∧ (mainLoopBody jm j2 t).y = s.y := by
    intro s t hx hy etx ety
    rw [mainLoopBody_x] at etx
    rw [mainLoopBody_y] at ety
    simp only [hl1, hu1, hr1, hd1, if_true, if_false] at etx ety
    rw [mainLoopBody_x, mainLoopBody_y]
    simp only [hl2, hu2, hr2, hd2, if_true, if_false]
    rw [etx, ety]
    exact ⟨wrap16_dec_inc hx, wrap16_dec_inc hy⟩
  have sx : (mainSetup s0).x = 160 := rfl
  have sy : (mainSetup s0).y = 128 := rfl
  have f1x : (mainLoopBody jm j1 (mainSetup s0)).x = 159 := by
    rw [mainLoopBody_x]
    simp only [hl1, hr1, if_true, if_false, sx]
    decide
  have f1y : (mainLoopBody jm j1 (mainSetup s0)).y = 127 := by
    rw [mainLoopBody_y]
    simp only [hu1, hd1, if_true, if_false, sy]
    decide
  refine ⟨⟨sx, sy⟩, ⟨f1x, f1y⟩, ?_, gen⟩
  have h := gen (mainSetup s0) (mainLoopBody jm j1 (mainSetup s0))
    (by rw [sx]; decide) (by rw [sy]; decide) rfl rfl
  rw [sx, sy] at h
  exact h

/-- C6 (witness): the scenario with the cc65 masks: sample 5 is up+left,
sample 10 is down+right, starting from setup run on the all-zero state. -/
theorem c6_round_trip_witness :
    (leftActive cc65Masks 5 ∧ upActive cc65Masks 5 ∧ ¬ rightActive cc65Masks 5 ∧
      ¬ downActive cc65Masks 5) ∧
    (rightActive cc65Masks 10 ∧ downActive cc65Masks 10 ∧ ¬ leftActive cc65Masks 10 ∧
      ¬ upActive cc65Masks 10) ∧
    ((mainLoopBody cc65Masks 5 (mainSetup zeroState)).x = 159 ∧
      (mainLoopBody cc65Masks 5 (mainSetup zeroState)).y = 127) ∧
    ((mainLoopBody cc65Masks 10 (mainLoopBody cc65Masks 5 (mainSetup zeroState))).x = 160 ∧
      (mainLoopBody cc65Masks 10 (mainLoopBody cc65Masks 5 (mainSetup zeroState))).y = 128) :=
  ⟨by decide, by decide,
   (c6_round_trip cc65Masks 5 10 zeroState (by decide) (by decide)).2.1,
   (c6_round_trip cc65Masks 5 10 zeroState (by decide) (by decide)).2.2.1⟩

/-- C7 (counterexample): from y = 255 an iteration with only down active
leaves the int variable y = 256 and the 8-bit sprite Y register 0: the
register does not hold all of y. -/
theorem c7_counterexample :
    isInt16 ({ zeroState with x := 160, y := 255 } : State).x ∧
    isInt16 ({ zeroState with x := 160, y := 255 } : State).y ∧
    (mainLoopBody cc65Masks 2 { zeroState with x := 160, y := 255 }).y = 256 ∧
    (mainLoopBody cc65Masks 2 { zeroState with x := 160, y := 255 }).vic.spr0_y = 0 ∧
    (((mainLoopBody cc65Masks 2 { zeroState with x := 160, y := 255 }).vic.spr0_y : Nat) : Int)
      ≠ (mainLoopBody cc65Masks 2 { zeroState with x := 160, y := 255 }).y := by
  decide

/-- C7 (amended): for every position held in the int variables, one loop
iteration leaves the 8-bit sprite X position register equal to the low 8 bits
of x (x mod 256) and the 8-bit sprite Y position register equal to the low 8
bits of y (y mod 256), where x and y are the values the iteration leaves in
the variables; the Y register equals y itself exactly when 0 <= y <= 255. -/
theorem c7_position_registers (jm : JoyMasks) (joy : Nat) (s : State) :
    (((mainLoopBody jm joy s).vic.spr0_x : Nat) : Int) = (mainLoopBody jm joy s).x % 256 ∧
    (((mainLoopBody jm joy s).vic.spr0_y : Nat) : Int) = (mainLoopBody jm joy s).y % 256 ∧
    (mainLoopBody jm joy s).vic.spr0_x < 256 ∧
    (mainLoopBody jm joy s).vic.spr0_y < 256 ∧
    ((((mainLoopBody jm joy s).vic.spr0_y : Nat) : Int) = (mainLoopBody jm joy s).y ↔
      0 ≤ (mainLoopBody jm joy s).y ∧ (mainLoopBody jm joy s).y ≤ 255) := by
  rw [mainLoopBody_spr0_x, mainLoopBody_spr0_y]
  unfold toU8
  refine ⟨by omega, by omega, by omega, by omega, by omega⟩

/-- C8: after the setup copy loop, entered with n = 0 from any state, for
every index n < 63 the memory byte at address 832 + n equals sprite[n]; the
loop terminates having made exactly 63 writes, in index order, (832 + n,
sprite[n]) for n = 0..62, leaving n = 63; every write goes to an address in
832..894 and memory outside that range is unchanged. -/
theorem c8_copy_loop (s : State) :
    (∀ n, n < 63 → sprite[n]? = some ((copyLoop { s with n := 0 }).mem (832 + n))) ∧
    sprite.length = 63 ∧
    (copyLoop { s with n := 0 }).pokes
      = s.pokes ++ (List.range 63).map (fun n => (832 + n, sprite.getD n 0)) ∧
    (copyLoop { s with n := 0 }).pokes.length = s.pokes.length + 63 ∧
    (copyLoop { s with n := 0 }).n = 63 ∧
    (∀ p ∈ (copyLoop { s with n := 0 }).pokes.drop s.pokes.length,
      832 ≤ p.1 ∧ p.1 ≤ 894) ∧
    (∀ a, a < 832 ∨ 894 < a → (copyLoop { s with n := 0 }).mem a = s.mem a) := by
  obtain ⟨hn, hp, hm⟩ := copyLoop_zero s
  refine ⟨?_, rfl, hp, ?_, hn, ?_, ?_⟩
  · intro n h
    rw [hm, if_pos (by omega), sprite_getElem?_eq n h]
    simp
  · rw [hp]; simp
  · intro p hmem
    rw [hp, List.drop_left] at hmem
    obtain ⟨i, hi, rfl⟩ := List.mem_map.mp hmem
    have : i < 63 := List.mem_range.mp hi
    constructor
    · show 832 ≤ 832 + i
      omega
    · show 832 + i ≤ 894
      omega
  · intro a ha
    rw [hm, if_neg (by omega)]

/-- C8 (witness): the last byte of the bitmap, sprite[62] = 0x00, and the
byte before it, sprite[61] = 0x1C, as uploaded from the all-zero state. -/
theorem c8_copy_loop_witness :
    sprite[61]? = some ((copyLoop { zeroState with n := 0 }).mem (832 + 61)) ∧
    sprite[61]? = some 0x1C ∧
    (copyLoop { zeroState with n := 0 }).pokes.length = 63 :=
  ⟨(c8_copy_loop zeroState).1 61 (by decide), by decide,
   (c8_copy_loop zeroState).2.2.2.1⟩

/-- C9: the sprite data pointer setup stores for sprite slot 0 (13, at address
2040) designates the upload location: 13 * 64 is the upload base address 832,
sizeof(sprite) is 63, and every uploaded byte (addresses 832..894) lies in
the 64-byte block 13*64 .. 13*64+63 selected by the pointer, where after
setup the bitmap is found byte for byte. -/
theorem c9_sprite_pointer (s : State) :
    (mainSetup s).mem 2040 = 13 ∧
    (mainSetup s).mem 2040 * 64 = 832 ∧
    sizeofSprite = 63 ∧ sprite.length = sizeofSprite ∧
    (∀ n, n < sizeofSprite →
      (mainSetup s).mem 2040 * 64 ≤ 832 + n ∧ 832 + n ≤ (mainSetup s).mem 2040 * 64 + 63) ∧
    (∀ n, n < sizeofSprite →
      sprite[n]? = some ((mainSetup s).mem ((mainSetup s).mem 2040 * 64 + n))) ∧
    (mainSetup s).pokes
      = s.pokes ++ (List.range 63).map (fun n => (832 + n, sprite.getD n 0)) ++ [(2040, 13)] := by
  have hptr : (mainSetup s).mem 2040 = 13 := by
    simp [mainSetup, POKE, toU16, toU8]
  have hmem : ∀ a, a ≠ 2040 → (mainSetup s).mem a
      = (copyLoop { s with vic := { s.vic with bgcolor0 := toU8 3 },
                           irqDisabled := true, n := 0 }).mem a := by
    intro a ha
    simp [mainSetup, POKE, toU16, ha]
  have hpk : (mainSetup s).pokes
      = (copyLoop { s with vic := { s.vic with bgcolor0 := toU8 3 },
                           irqDisabled := true, n := 0 }).pokes ++ [(2040, 13)] := by
    simp [mainSetup, POKE, toU16, toU8]
  obtain ⟨_, hp, hm⟩ := copyLoop_zero
    { s with vic := { s.vic with bgcolor0 := toU8 3 }, irqDisabled := true }
  refine ⟨hptr, by rw [hptr], rfl, rfl, ?_, ?_, ?_⟩
  · intro n hn
    rw [hptr]
    unfold sizeofSprite at hn
    omega
  · intro n hn
    unfold sizeofSprite at hn
    rw [hptr, hmem _ (by omega)]
    have h63 : n < 63 := by omega
    rw [hm, if_pos (by omega), sprite_getElem?_eq n h63]
    simp
  · rw [hpk, hp]

/-- C9 (witness): after setup from the all-zero state, the first byte of the
block the pointer selects is sprite[1] at offset 1. -/
theorem c9_sprite_pointer_witness :
    (mainSetup zeroState).mem 2040 = 13 ∧
    sprite[1]? = some ((mainSetup zeroState).mem ((mainSetup zeroState).mem 2040 * 64 + 1)) ∧
    sprite[1]? = some 0x7F :=
  ⟨(c9_sprite_pointer zeroState).1,
   (c9_sprite_pointer zeroState).2.2.2.2.2.1 1 (by decide), by decide⟩

/-- C10: the loop writes the shared sprite X high-bit register wholesale: for
every previous content of the register and every x, after one loop iteration
the register is exactly 0 or exactly 1, so its bits 1 to 7 are cleared, not
preserved; its value is determined by bit 8 of the x the iteration leaves and
does not depend on the previous content. -/
theorem c10_high_bit_wholesale (jm : JoyMasks) (joy : Nat) (s : State) :
    ((mainLoopBody jm joy s).vic.spr_hi_x = 0 ∨ (mainLoopBody jm joy s).vic.spr_hi_x = 1) ∧
    (∀ k, 1 ≤ k → (mainLoopBody jm joy s).vic.spr_hi_x.testBit k = false) ∧
    ((mainLoopBody jm joy s).vic.spr_hi_x.testBit 0
      = (mainLoopBody jm joy s).x.testBit 8) ∧
    (∀ v : Nat, (mainLoopBody jm joy { s with vic := { s.vic with spr_hi_x := v } }).vic.spr_hi_x
      = (mainLoopBody jm joy s).vic.spr_hi_x) := by
  have key : ∀ t : State, (mainLoopBody jm joy t).vic.spr_hi_x
      = if (mainLoopBody jm joy t).x.testBit 8 = true then 1 else 0 := by
    intro t
    rw [mainLoopBody_spr_hi_x]
    by_cases hb : (mainLoopBody jm joy t).x.testBit 8 = true
    · have hl := (land_256_ne_zero_iff_testBit _).mpr hb
      rw [if_pos hl, if_pos hb]; rfl
    · have hl : ¬ Int.land (mainLoopBody jm joy t).x 256 ≠ 0 :=
        fun h => hb ((land_256_ne_zero_iff_testBit _).mp h)
      rw [if_neg hl, if_neg hb]; rfl
  have h01 : (mainLoopBody jm joy s).vic.spr_hi_x = 0 ∨
      (mainLoopBody jm joy s).vic.spr_hi_x = 1 := by
    rw [key]
    by_cases hb : (mainLoopBody jm joy s).x.testBit 8 = true
    · right; rw [if_pos hb]
    · left; rw [if_neg hb]
  refine ⟨h01, ?_, ?_, ?_⟩
  · intro k hk
    apply Nat.testBit_lt_two_pow
    have h2 : 2 ^ 1 ≤ 2 ^ k := Nat.pow_le_pow_right (by decide) hk
    rcases h01 with h | h <;> rw [h] <;> omega
  · rw [key]
    cases (mainLoopBody jm joy s).x.testBit 8 <;> simp
  · intro v
    rw [key, key, mainLoopBody_x, mainLoopBody_x]

/-- C10 (witness): with every bit of the high-bit register set beforehand
(0xFF) and x = 100, the register is 0 after one iteration; with x = 300 it is 1. -/
theorem c10_high_bit_wholesale_witness :
    (mainLoopBody cc65Masks 0
      { zeroState with x := 100, vic := { zeroState.vic with spr_hi_x := 0xFF } }
      ).vic.spr_hi_x = 0 ∧
    (mainLoopBody cc65Masks 0
      { zeroState with x := 300, vic := { zeroState.vic with spr_hi_x := 0xFF } }
      ).vic.spr_hi_x = 1 ∧
    (mainLoopBody cc65Masks 0
      { zeroState with x := 300, vic := { zeroState.vic with spr_hi_x := 0xFF } }
      ).vic.spr_hi_x.testBit 7 = false :=
  ⟨by decide, by decide,
   (c10_high_bit_wholesale cc65Masks 0
      { zeroState with x := 300, vic := { zeroState.vic with spr_hi_x := 0xFF } }
      ).2.1 7 (by decide)⟩

end Joymove
